import Mathlib

/-!
Shallow embedding of the editable document engine of AgIsoTerminalDesigner
(src/editor_project.rs, src/object_configuring.rs, src/main.rs,
src/project_file.rs), together with proofs about its identifier allocation,
cycle guard, undo/redo document state machine, copy/paste, naming and
import-merge operations.

Machine integers (u16 object identifiers) are modelled as `Nat`; every value
the program ever produces stays below 2^16, and where the source checks
validity of an identifier the reserved null value 65535 (0xFFFF) appears
explicitly.  Rust `HashMap`/`HashSet` state is modelled by association lists
and lists with set semantics (a determinization of the unordered iteration;
noted at each use site).  Fallible operations and `panic!` are modelled with
`Option`: `none` is the panic/abort outcome.
-/

namespace TerminalDesigner

/-- The object-type tag of `ag_iso_stack::object_pool::ObjectType`, with the
49 variants matched by `EditorProject::object_id_range` in
src/editor_project.rs. -/
inductive ObjectType where
  | WorkingSet
  | DataMask
  | AlarmMask
  | Container
  | SoftKeyMask
  | Key
  | Button
  | InputBoolean
  | InputString
  | InputNumber
  | InputList
  | OutputString
  | OutputNumber
  | OutputList
  | OutputLine
  | OutputRectangle
  | OutputEllipse
  | OutputPolygon
  | OutputMeter
  | OutputLinearBarGraph
  | OutputArchedBarGraph
  | PictureGraphic
  | NumberVariable
  | StringVariable
  | FontAttributes
  | LineAttributes
  | FillAttributes
  | InputAttributes
  | ObjectPointer
  | Macro
  | AuxiliaryFunctionType1
  | AuxiliaryInputType1
  | AuxiliaryFunctionType2
  | AuxiliaryInputType2
  | AuxiliaryControlDesignatorType2
  | ColourMap
  | GraphicsContext
  | ColourPalette
  | GraphicData
  | WorkingSetSpecialControls
  | ScaledGraphic
  | WindowMask
  | KeyGroup
  | ExtendedInputAttributes
  | ExternalObjectPointer
  | ExternalObjectDefinition
  | ExternalReferenceName
  | ObjectLabelReferenceList
  | Animation
  deriving DecidableEq, Repr

/-- `EditorProject::object_id_range` (src/editor_project.rs lines 169-221):
the allowed inclusive ID range for a given object type, as a pair
(low, high). -/
def object_id_range (t : ObjectType) : Nat × Nat :=
  match t with
  | .WorkingSet => (0, 0)
  | .DataMask => (1000, 1999)
  | .AlarmMask => (2000, 2999)
  | .Container => (3000, 3999)
  | .SoftKeyMask => (4000, 4999)
  | .Key => (5000, 5999)
  | .Button => (6000, 6999)
  | .InputBoolean => (7000, 7999)
  | .InputString => (8000, 8999)
  | .InputNumber => (9000, 9999)
  | .InputList => (10000, 10999)
  | .OutputString => (11000, 11999)
  | .OutputNumber => (12000, 12999)
  | .OutputList => (37000, 37999)
  | .OutputLine => (13000, 13999)
  | .OutputRectangle => (14000, 14999)
  | .OutputEllipse => (15000, 15999)
  | .OutputPolygon => (16000, 16999)
  | .OutputMeter => (17000, 17999)
  | .OutputLinearBarGraph => (18000, 18999)
  | .OutputArchedBarGraph => (19000, 19999)
  | .PictureGraphic => (20000, 20999)
  | .NumberVariable => (21000, 21999)
  | .StringVariable => (22000, 22999)
  | .FontAttributes => (23000, 23999)
  | .LineAttributes => (24000, 24999)
  | .FillAttributes => (25000, 25999)
  | .InputAttributes => (26000, 26999)
  | .ObjectPointer => (27000, 27999)
  | .Macro => (28000, 28999)
  | .AuxiliaryFunctionType1 => (29000, 29999)
  | .AuxiliaryInputType1 => (30000, 30999)
  | .AuxiliaryFunctionType2 => (31000, 31999)
  | .AuxiliaryInputType2 => (32000, 32999)
  | .AuxiliaryControlDesignatorType2 => (33000, 33999)
  | .ColourMap => (34000, 34999)
  | .GraphicsContext => (35000, 35999)
  | .ColourPalette => (36000, 36999)
  | .GraphicData => (37000, 37999)
  | .WorkingSetSpecialControls => (38000, 38999)
  | .ScaledGraphic => (39000, 39999)
  | .WindowMask => (40000, 40999)
  | .KeyGroup => (41000, 41999)
  | .ExtendedInputAttributes => (42000, 42999)
  | .ExternalObjectPointer => (43000, 43999)
  | .ExternalObjectDefinition => (44000, 44999)
  | .ExternalReferenceName => (45000, 45999)
  | .ObjectLabelReferenceList => (46000, 46999)
  | .Animation => (47000, 47999)

/-- The list of identifiers of an inclusive range (lo, hi), in ascending
order: the iteration order of the Rust `RangeInclusive`. -/
def rangeList (r : Nat × Nat) : List Nat :=
  List.range' r.1 (r.2 + 1 - r.1)

/-- A child reference with a position, `ag_iso_stack::object_pool::ObjectRef`
(fields `id` and an x/y offset).  Only the `id` field is ever remapped by the
code under study. -/
structure ObjectRef where
  id : Nat
  offset : Int × Int
  deriving DecidableEq, Repr

/-- The tagged union `ag_iso_stack::object_pool::object::Object`, restricted
to the variants whose reference fields the repository's code manipulates
explicitly (the seven variants handled by `remap_object_references` in
src/main.rs), plus an `objectPointer` variant (a reference-carrying variant
that `remap_object_references` does NOT handle) and two leaf variants
(`numberVariable`, `fontAttributes`) with no reference fields.  Field names
follow the Rust structs. -/
inductive Obj where
  | workingSet (id : Nat) (active_mask : Nat) (object_refs : List ObjectRef)
  | dataMask (id : Nat) (soft_key_mask : Option Nat) (object_refs : List ObjectRef)
  | alarmMask (id : Nat) (soft_key_mask : Option Nat) (object_refs : List ObjectRef)
  | container (id : Nat) (object_refs : List ObjectRef)
  | softKeyMask (id : Nat) (objects : List (Option Nat))
  | key (id : Nat) (object_refs : List ObjectRef)
  | button (id : Nat) (object_refs : List ObjectRef)
  | objectPointer (id : Nat) (value : Option Nat)
  | numberVariable (id : Nat) (value : Nat)
  | fontAttributes (id : Nat)
  deriving DecidableEq, Repr

/-- `Object::id()`: the object's own identifier. -/
def Obj.id : Obj → Nat
  | .workingSet i _ _ => i
  | .dataMask i _ _ => i
  | .alarmMask i _ _ => i
  | .container i _ => i
  | .softKeyMask i _ => i
  | .key i _ => i
  | .button i _ => i
  | .objectPointer i _ => i
  | .numberVariable i _ => i
  | .fontAttributes i => i

/-- `Object::object_type()`. -/
def Obj.objectType : Obj → ObjectType
  | .workingSet _ _ _ => .WorkingSet
  | .dataMask _ _ _ => .DataMask
  | .alarmMask _ _ _ => .AlarmMask
  | .container _ _ => .Container
  | .softKeyMask _ _ => .SoftKeyMask
  | .key _ _ => .Key
  | .button _ _ => .Button
  | .objectPointer _ _ => .ObjectPointer
  | .numberVariable _ _ => .NumberVariable
  | .fontAttributes _ => .FontAttributes

/-- `Object::referenced_objects()` of the ag_iso_stack library: every object
identifier held in a reference field of the object (children, the active
mask, soft key mask links, pointer targets).  Modelled from the library's
documented behaviour for the variants embedded here. -/
def Obj.referencedObjects : Obj → List Nat
  | .workingSet _ am refs => am :: refs.map ObjectRef.id
  | .dataMask _ skm refs => skm.toList ++ refs.map ObjectRef.id
  | .alarmMask _ skm refs => skm.toList ++ refs.map ObjectRef.id
  | .container _ refs => refs.map ObjectRef.id
  | .softKeyMask _ objs => objs.reduceOption
  | .key _ refs => refs.map ObjectRef.id
  | .button _ refs => refs.map ObjectRef.id
  | .objectPointer _ v => v.toList
  | .numberVariable _ _ => []
  | .fontAttributes _ => []

/-- The id-assignment `o.id = new_id` performed (per variant) by
`EditorProject::copy_selected_objects_as_new` (src/editor_project.rs lines
95-145): each arm writes the new id into the clone's identifier field only. -/
def Obj.setId : Obj → Nat → Obj
  | .workingSet _ am refs, n => .workingSet n am refs
  | .dataMask _ skm refs, n => .dataMask n skm refs
  | .alarmMask _ skm refs, n => .alarmMask n skm refs
  | .container _ refs, n => .container n refs
  | .softKeyMask _ objs, n => .softKeyMask n objs
  | .key _ refs, n => .key n refs
  | .button _ refs, n => .button n refs
  | .objectPointer _ v, n => .objectPointer n v
  | .numberVariable _ v, n => .numberVariable n v
  | .fontAttributes _, n => .fontAttributes n

/-- The reserved "no reference" identifier value: `ObjectId::NULL` of the
ag_iso_stack library is 0xFFFF (the spec's one reserved value). -/
def nullObjectId : Nat := 65535

/-- `ObjectId::new(v)` / `mut_id().set_value(v)` of the ag_iso_stack library:
constructing an object identifier fails exactly on the reserved null value.
Modelled from the library's convention (one reserved value denotes "no
reference"). -/
def objectIdNew (v : Nat) : Option Nat :=
  if v < nullObjectId then some v else none

/-- An `ObjectPool` is its vector of objects (`ObjectPool::objects()`), in
insertion order. -/
abbrev Pool := List Obj

/-- `ObjectPool::object_by_id`: the first object with the given id, if any. -/
def object_by_id (pool : Pool) (i : Nat) : Option Obj :=
  pool.find? (fun o => o.id == i)

/-- `ObjectPool::add`: push an object at the end of the pool. -/
def poolAdd (pool : Pool) (o : Obj) : Pool := pool ++ [o]

/-! Association lists stand in for Rust `HashMap`s.  `HashMap` iteration
order is unspecified; the list order is one concrete such order, a
determinization noted wherever iteration order could matter. -/

/-- `HashMap::entry(k).or_insert(v)` when the entry is not modified further:
insert `(k, v)` only when `k` has no binding yet. -/
def alInsertIfAbsent {κ α : Type} [BEq κ] (m : List (κ × α)) (k : κ) (v : α) :
    List (κ × α) :=
  if (m.lookup k).isSome then m else m ++ [(k, v)]

/-- `HashMap::entry(k).or_insert_with(|| d)` followed by an in-place update
`f` of the (existing or freshly inserted) entry. -/
def alUpsert {α : Type} (m : List (Nat × α)) (k : Nat) (d : α) (f : α → α) :
    List (Nat × α) :=
  if (m.lookup k).isSome then
    m.map (fun p => if p.1 = k then (p.1, f p.2) else p)
  else m ++ [(k, f d)]

/-- Modelled from the spec: `ObjectInfo` (src/object_info.rs is not among the
provided sources).  Per-node metadata holding the optional user-assigned
name; absent names fall back to the deterministically generated default
name. -/
structure ObjectInfo where
  name : Option String
  deriving DecidableEq, Repr

/-- Modelled from the spec: `ObjectInfo::new(object)` creates metadata with
no user-assigned name. -/
def ObjectInfo.new (_o : Obj) : ObjectInfo := ⟨none⟩

/-- Modelled from the spec: `ObjectInfo::set_name` stores the given name
(used both for user renames and generated names). -/
def ObjectInfo.set_name (_info : ObjectInfo) (n : String) : ObjectInfo := ⟨some n⟩

/-- Modelled from the spec: `smart_naming::get_object_type_name`
(src/smart_naming.rs is not among the provided sources): a short human
readable type prefix. -/
def get_object_type_name (t : ObjectType) : String :=
  match t with
  | .WorkingSet => "Working Set"
  | .DataMask => "Data Mask"
  | .AlarmMask => "Alarm Mask"
  | .Container => "Container"
  | .SoftKeyMask => "Soft Key Mask"
  | .Key => "Key"
  | .Button => "Button"
  | .InputBoolean => "Input Boolean"
  | .InputString => "Input String"
  | .InputNumber => "Input Number"
  | .InputList => "Input List"
  | .OutputString => "Output String"
  | .OutputNumber => "Output Number"
  | .OutputList => "Output List"
  | .OutputLine => "Output Line"
  | .OutputRectangle => "Output Rectangle"
  | .OutputEllipse => "Output Ellipse"
  | .OutputPolygon => "Output Polygon"
  | .OutputMeter => "Output Meter"
  | .OutputLinearBarGraph => "Output Linear Bar Graph"
  | .OutputArchedBarGraph => "Output Arched Bar Graph"
  | .PictureGraphic => "Picture Graphic"
  | .NumberVariable => "Number Variable"
  | .StringVariable => "String Variable"
  | .FontAttributes => "Font Attributes"
  | .LineAttributes => "Line Attributes"
  | .FillAttributes => "Fill Attributes"
  | .InputAttributes => "Input Attributes"
  | .ObjectPointer => "Object Pointer"
  | .Macro => "Macro Command"
  | .AuxiliaryFunctionType1 => "Auxiliary Function Type 1"
  | .AuxiliaryInputType1 => "Auxiliary Input Type 1"
  | .AuxiliaryFunctionType2 => "Auxiliary Function Type 2"
  | .AuxiliaryInputType2 => "Auxiliary Input Type 2"
  | .AuxiliaryControlDesignatorType2 => "Auxiliary Control Designator Type 2"
  | .ColourMap => "Colour Map"
  | .GraphicsContext => "Graphics Context"
  | .ColourPalette => "Colour Palette"
  | .GraphicData => "Graphic Data"
  | .WorkingSetSpecialControls => "Working Set Special Controls"
  | .ScaledGraphic => "Scaled Graphic"
  | .WindowMask => "Window Mask"
  | .KeyGroup => "Key Group"
  | .ExtendedInputAttributes => "Extended Input Attributes"
  | .ExternalObjectPointer => "External Object Pointer"
  | .ExternalObjectDefinition => "External Object Definition"
  | .ExternalReferenceName => "External Reference Name"
  | .ObjectLabelReferenceList => "Object Label Reference List"
  | .Animation => "Animation"

/-- The generated default name `format!("Object {} ({})", id, type name)`
(src/editor_project.rs lines 435-439 and the spec's §3 fallback). -/
def defaultObjectName (o : Obj) : String :=
  "Object " ++ toString o.id ++ " (" ++ get_object_type_name o.objectType ++ ")"

/-- Modelled from the spec: `ObjectInfo::get_name(object)` returns the stored
user name, falling back to the generated default name. -/
def ObjectInfo.get_name (info : ObjectInfo) (o : Obj) : String :=
  info.name.getD (defaultObjectName o)

/-- Modelled from the spec: `smart_naming::generate_smart_default_name`
(src/smart_naming.rs is not among the provided sources): a type-prefixed,
numerically suffixed label distinct from every name in `existing_names`.
The search tries suffixes 1, 2, ... ; among the first `existing_names.length
+ 1` candidates one is always free. -/
def generate_smart_default_name (t : ObjectType)
    (existing_names : List (String × ObjectType)) : String :=
  let base := get_object_type_name t
  let cands := (List.range (existing_names.length + 1)).map
    (fun n => base ++ " " ++ toString (n + 1))
  match cands.find? (fun s => (existing_names.lookup s).isNone) with
  | some s => s
  | none => base ++ " " ++ toString (existing_names.length + 1)

/-- `MAX_UNDO_REDO_POOL` (src/editor_project.rs line 13). -/
def MAX_UNDO_REDO_POOL : Nat := 10

/-- `MAX_UNDO_REDO_SELECTED` (src/editor_project.rs line 14). -/
def MAX_UNDO_REDO_SELECTED : Nat := 20

/-- `ObjectPool::get_minimum_mask_sizes` of the ag_iso_stack library.  The
claims under study never depend on the computed sizes; the library default
mask size is used. -/
def get_minimum_mask_sizes (_pool : Pool) : Nat × (Nat × Nat) :=
  (500, (60, 60))

/-- The `EditorProject` document aggregate (src/editor_project.rs lines
16-41).  Rust `Vec` stacks are lists growing at the right end (`push`
appends, `pop` takes the last element, `drain(..k)` removes the oldest
entries at the front).  The `renaming_object` and `image_load_request`
fields (a UI-widget handle and the single-slot image request) play no part
in any claim and are omitted. -/
structure EditorProject where
  pool : Pool
  mut_pool : Pool
  undo_pool_history : List Pool
  redo_pool_history : List Pool
  selected_object : Option Nat
  mut_selected_object : Option Nat
  undo_selected_history : List (Option Nat)
  redo_selected_history : List (Option Nat)
  mask_size : Nat
  soft_key_size : Nat × Nat
  object_info : List (Nat × ObjectInfo)
  next_available_id : Nat
  default_object_names : List (Nat × String)
  deriving DecidableEq, Repr

/-- `impl From<ObjectPool> for EditorProject` (src/editor_project.rs lines
43-73): fresh document over a pool; `next_available_id` is the highest id in
use plus one (`saturating_add` on u16). -/
def fromPool (pool : Pool) : EditorProject :=
  let sizes := get_minimum_mask_sizes pool
  let max_id := (pool.map Obj.id).foldr max 0
  { pool := pool
    mut_pool := pool
    undo_pool_history := []
    redo_pool_history := []
    selected_object := none
    mut_selected_object := none
    undo_selected_history := []
    redo_selected_history := []
    mask_size := sizes.1
    soft_key_size := sizes.2
    object_info := []
    next_available_id := min (max_id + 1) 65535
    default_object_names := [] }

/-- `EditorProject::allocate_object_id_for_type` (src/editor_project.rs lines
224-237): the first id of the type's range not present in the committed
pool.  Every id in every range is below 65535, so `ObjectId::new` never
fails inside the loop; the `panic!` on an exhausted range is the `none`
outcome. -/
def allocate_object_id_for_type (p : EditorProject) (t : ObjectType) :
    Option Nat :=
  (rangeList (object_id_range t)).find?
    (fun i => (object_by_id p.pool i).isNone)

/-- `EditorProject::update_next_available_id` (src/editor_project.rs lines
240-249). -/
def update_next_available_id (p : EditorProject) : EditorProject :=
  { p with next_available_id := min ((p.pool.map Obj.id).foldr max 0 + 1) 65535 }

/-- `EditorProject::update_pool` (src/editor_project.rs lines 273-287): if
the staging pool differs from the committed pool, clear the redo stack, push
the committed pool on the undo stack, drain the oldest entries beyond
`MAX_UNDO_REDO_POOL`, replace the committed pool and clear the default-name
cache; returns whether the pool was updated. -/
def update_pool (p : EditorProject) : Bool × EditorProject :=
  if p.mut_pool ≠ p.pool then
    let undo1 := p.undo_pool_history ++ [p.pool]
    let undo2 :=
      if undo1.length > MAX_UNDO_REDO_POOL then
        undo1.drop (undo1.length - MAX_UNDO_REDO_POOL)
      else undo1
    (true, { p with
      redo_pool_history := []
      undo_pool_history := undo2
      pool := p.mut_pool
      default_object_names := [] })
  else (false, p)

/-- `EditorProject::undo` (src/editor_project.rs lines 290-304). -/
def undo (p : EditorProject) : EditorProject :=
  match p.undo_pool_history.getLast? with
  | none => p
  | some q =>
    update_next_available_id { p with
      undo_pool_history := p.undo_pool_history.dropLast
      redo_pool_history := p.redo_pool_history ++ [p.pool]
      pool := q
      mut_pool := q
      default_object_names := [] }

/-- `EditorProject::redo` (src/editor_project.rs lines 312-325). -/
def redo (p : EditorProject) : EditorProject :=
  match p.redo_pool_history.getLast? with
  | none => p
  | some q =>
    update_next_available_id { p with
      redo_pool_history := p.redo_pool_history.dropLast
      undo_pool_history := p.undo_pool_history ++ [p.pool]
      pool := q
      mut_pool := q
      default_object_names := [] }

/-- `EditorProject::copy_selected_objects_as_new` (src/editor_project.rs
lines 88-151): clone the selected object, allocate a fresh id for its type
and write it into the clone's identifier field (the per-variant `o.id =
new_id` arms, modelled by `Obj.setId`); reference fields inside the clone
are left untouched (the source's `TODO` comment at line 146).  The body
performs no write to the document, so the document comes back unchanged;
`none` is the `panic!` outcome of an exhausted id range. -/
def copy_selected_objects_as_new (p : EditorProject) :
    Option (List Obj × EditorProject) :=
  match p.selected_object with
  | none => some ([], p)
  | some i =>
    match object_by_id p.pool i with
    | none => some ([], p)
    | some obj =>
      match allocate_object_id_for_type p obj.objectType with
      | none => none
      | some nid => some ([obj.setId nid], p)

/-- The default-name cache read `default_object_names.entry(id)
.or_insert_with(|| format!("Object {} ({})", ...))` shared by
`get_all_object_names` and `apply_smart_naming_to_object`: returns the
cached or freshly generated default name together with the updated cache. -/
def cacheDefaultName (cache : List (Nat × String)) (o : Obj) :
    String × List (Nat × String) :=
  match cache.lookup o.id with
  | some s => (s, cache)
  | none => (defaultObjectName o, cache ++ [(o.id, defaultObjectName o)])

/-- `EditorProject::get_all_object_names` (src/editor_project.rs lines
422-446): the name of every pool object (stored name, or cached default),
keyed by name with the first object type seen for it; updates the
default-name cache. -/
def get_all_object_names (p : EditorProject) :
    List (String × ObjectType) × EditorProject :=
  let r := p.pool.foldl
    (fun (acc : List (String × ObjectType) × List (Nat × String)) o =>
      match p.object_info.lookup o.id with
      | some info => (alInsertIfAbsent acc.1 (info.get_name o) o.objectType, acc.2)
      | none =>
        let nc := cacheDefaultName acc.2 o
        (alInsertIfAbsent acc.1 nc.1 o.objectType, nc.2))
    ([], p.default_object_names)
  (r.1, { p with default_object_names := r.2 })

/-- `EditorProject::generate_smart_name_for_new_object` (src/editor_project.rs
lines 449-452). -/
def generate_smart_name_for_new_object (p : EditorProject) (t : ObjectType) :
    String × EditorProject :=
  let r := get_all_object_names p
  (generate_smart_default_name t r.1, r.2)

/-- `EditorProject::apply_smart_naming_to_all_objects` (src/editor_project.rs
lines 455-485): builds the map of names of objects that already carry one,
then walks the WHOLE pool, generating and storing a smart name for every
object (the loop at lines 471-484 has no already-named check, although its
comment says "remaining objects").  `HashMap` iteration over `object_info`
is determinized as the association list's order. -/
def apply_smart_naming_to_all_objects (p : EditorProject) : EditorProject :=
  let existing0 := p.object_info.foldl
    (fun (acc : List (String × ObjectType)) kv =>
      match kv.2.name with
      | some nm =>
        match object_by_id p.pool kv.1 with
        | some o => alInsertIfAbsent acc nm o.objectType
        | none => acc
      | none => acc) []
  let r := p.pool.foldl
    (fun (acc : List (String × ObjectType) × List (Nat × ObjectInfo)) o =>
      let new_name := generate_smart_default_name o.objectType acc.1
      (alInsertIfAbsent acc.1 new_name o.objectType,
       alUpsert acc.2 o.id (ObjectInfo.new o) (fun i => i.set_name new_name)))
    (existing0, p.object_info)
  { p with object_info := r.2 }

/-- `EditorProject::apply_smart_naming_to_object` (src/editor_project.rs
lines 488-528): no-op when the object already carries a stored name;
otherwise builds the name map of every OTHER pool object (stored name, or
cached default; the object being named is skipped only when it has no info
entry, mirroring the `else if` at line 504), generates a fresh smart name
and stores it. -/
def apply_smart_naming_to_object (p : EditorProject) (o : Obj) : EditorProject :=
  let already :=
    match p.object_info.lookup o.id with
    | some info => info.name.isSome
    | none => false
  if already then p
  else
    let r := p.pool.foldl
      (fun (acc : List (String × ObjectType) × List (Nat × String)) obj =>
        match p.object_info.lookup obj.id with
        | some info => (alInsertIfAbsent acc.1 (info.get_name obj) obj.objectType, acc.2)
        | none =>
          if obj.id = o.id then acc
          else
            let nc := cacheDefaultName acc.2 obj
            (alInsertIfAbsent acc.1 nc.1 obj.objectType, nc.2))
      ([], p.default_object_names)
    let new_name := generate_smart_default_name o.objectType r.1
    { p with
      object_info := alUpsert p.object_info o.id (ObjectInfo.new o)
        (fun i => i.set_name new_name)
      default_object_names := r.2 }

/-! ## The cycle guard (src/object_configuring.rs lines 26-61) -/

/-- The identifiers a given identifier references in a pool: the referenced
objects of the object with that id, or nothing when the pool has no such
object (the `if let Some(obj)` at line 53). -/
def refsOf (pool : Pool) (i : Nat) : List Nat :=
  match object_by_id pool i with
  | some o => o.referencedObjects
  | none => []

/-- Every identifier the depth-first search of
`would_create_circular_reference` can ever push on its stack: the starting
child plus every identifier referenced by any pool object. -/
def allNodeIds (pool : Pool) (child : Nat) : Finset Nat :=
  (child :: (pool.map Obj.referencedObjects).flatten).toFinset

/-- The worklist loop of `would_create_circular_reference`
(src/object_configuring.rs lines 38-58).  The source marks nodes in a
`visited` set and skips a popped node already in it; here the complement is
carried instead: `remaining` is the set of not-yet-visited candidate nodes,
initialized to `allNodeIds` (which provably contains every id that ever
enters the stack, so `current ∉ remaining` holds exactly when the source's
`visited.insert(current)` returns false).  The source pushes
`referenced_objects` in order onto a `Vec` used LIFO, hence the `reverse`.
This formulation makes termination structural: each visit shrinks
`remaining`, each skip shrinks the stack. -/
def dfsAux (pool : Pool) (parent : Nat) :
    List Nat → Finset Nat → Bool
  | [], _ => false
  | current :: rest, remaining =>
    if current ∉ remaining then dfsAux pool parent rest remaining
    else if current = parent then true
    else dfsAux pool parent ((refsOf pool current).reverse ++ rest)
      (remaining.erase current)
  termination_by stack remaining => (remaining.card, stack.length)
  decreasing_by
  · exact Prod.Lex.right _ (Nat.lt_succ_self _)
  · exact Prod.Lex.left _ _ (Finset.card_erase_lt_of_mem (by simpa using ‹¬current ∉ remaining›))

/-- `would_create_circular_reference(pool, parent_id, child_id)`
(src/object_configuring.rs lines 26-61): true when parent and child
coincide, or when the depth-first search from the child reaches the
parent. -/
def would_create_circular_reference (pool : Pool) (parent child : Nat) : Bool :=
  if parent = child then true
  else dfsAux pool parent [child] (allNodeIds pool child)

/-- One reference edge of the pool: `b` is among the referenced objects of
the object with id `a`. -/
def refEdge (pool : Pool) (a b : Nat) : Prop := b ∈ refsOf pool a

/-- Reachability along reference edges of a pool, as the cycle guard
traverses them. -/
def reaches (pool : Pool) (a b : Nat) : Prop :=
  Relation.ReflTransGen (refEdge pool) a b

/-! ## Reference remapping and the import merge (src/main.rs) -/

/-- `map.get(&old).map_or(old, |new| *new)`: the `if let Some(new_id) =
id_map.get(..)` pattern of `remap_object_references`, leaving unmapped
identifiers untouched. -/
def remapId (m : List (Nat × Nat)) (i : Nat) : Nat := (m.lookup i).getD i

/-- `remap_object_references(obj, id_map)` (src/main.rs lines 2-80): rewrite
the reference fields of the seven handled variants through the map; every
other variant falls into the `_ => {}` arm and is returned unchanged. -/
def remap_object_references (o : Obj) (m : List (Nat × Nat)) : Obj :=
  match o with
  | .workingSet i am refs =>
    .workingSet i (remapId m am) (refs.map (fun r => { r with id := remapId m r.id }))
  | .dataMask i skm refs =>
    .dataMask i (skm.map (remapId m)) (refs.map (fun r => { r with id := remapId m r.id }))
  | .alarmMask i skm refs =>
    .alarmMask i (skm.map (remapId m)) (refs.map (fun r => { r with id := remapId m r.id }))
  | .container i refs =>
    .container i (refs.map (fun r => { r with id := remapId m r.id }))
  | .softKeyMask i objs =>
    .softKeyMask i (objs.map (fun oi => oi.map (remapId m)))
  | .key i refs =>
    .key i (refs.map (fun r => { r with id := remapId m r.id }))
  | .button i refs =>
    .button i (refs.map (fun r => { r with id := remapId m r.id }))
  | .objectPointer i v => .objectPointer i v
  | .numberVariable i v => .numberVariable i v
  | .fontAttributes i => .fontAttributes i

/-- Whether `remap_object_references` has an arm for the object's variant
(the seven types handled in src/main.rs lines 6-76; everything else falls
into `_ => {}`). -/
def remapHandled (o : Obj) : Prop :=
  o.objectType = .WorkingSet ∨ o.objectType = .DataMask ∨
  o.objectType = .AlarmMask ∨ o.objectType = .Container ∨
  o.objectType = .SoftKeyMask ∨ o.objectType = .Key ∨ o.objectType = .Button

instance (o : Obj) : Decidable (remapHandled o) := by
  unfold remapHandled; infer_instance

/-! ## Project wrapper persistence (src/project_file.rs, load path) -/

/-- `ObjectMetadata` (src/project_file.rs lines 31-38). -/
structure ObjectMetadata where
  name : Option String
  notes : Option String
  deriving DecidableEq, Repr

/-- `ProjectSettings` (src/project_file.rs lines 41-48). -/
structure ProjectSettings where
  mask_size : Nat
  last_selected : Option Nat
  deriving DecidableEq, Repr

/-- `ProjectFile` (src/project_file.rs lines 15-28).  The embedded
`object_pool_data` IOP bytes and their serde/`from_iop` codec belong to the
external library; the wrapper is modelled with the pool already decoded (the
claim under study concerns what `load_project` does after a successful
decode). -/
structure ProjectFile where
  version : Nat
  pool : Pool
  object_metadata : List (Nat × ObjectMetadata)
  settings : ProjectSettings
  deriving DecidableEq, Repr

/-- `EditorProject::load_project` (src/editor_project.rs lines 545-586),
after a successful wrapper parse and pool decode: build the document from
the pool, take the stored mask size, restore metadata names for ids present
in the metadata map, apply smart naming to every object, then restore the
last-selected identifier whenever `ObjectId::new` accepts it — the source
performs no check that the identifier resolves to an object of the pool. -/
def load_project (pf : ProjectFile) : EditorProject :=
  let ep0 := { fromPool pf.pool with mask_size := pf.settings.mask_size }
  let info1 := pf.pool.foldl
    (fun (acc : List (Nat × ObjectInfo)) o =>
      match pf.object_metadata.lookup o.id with
      | some meta =>
        match meta.name with
        | some nm => alUpsert acc o.id (ObjectInfo.new o) (fun i => i.set_name nm)
        | none => alUpsert acc o.id (ObjectInfo.new o) id
      | none => acc)
    ep0.object_info
  let ep1 := { ep0 with object_info := info1 }
  let ep2 := pf.pool.foldl apply_smart_naming_to_object ep1
  match pf.settings.last_selected with
  | some sid =>
    match objectIdNew sid with
    | some i => { ep2 with selected_object := some i, mut_selected_object := some i }
    | none => ep2
  | none => ep2

/-! ## The import merge (src/main.rs lines 1714-1869) -/

/-- The breadth-first dependency closure of the import selection (src/main.rs
lines 1716-1731): a `VecDeque` worklist with a `HashSet` of collected ids,
gathered here in first-visit order.  As in `dfsAux`, the not-yet-collected
candidate universe `remaining` replaces the collected set; initialized to
the deduplicated list of every id that can enter the queue, so `id ∉
remaining` holds exactly when the source's `to_import.contains(&id)` is
true. -/
def closureAux (source : Pool) : List Nat → List Nat → List Nat
  | [], _ => []
  | i :: rest, remaining =>
    if i ∉ remaining then closureAux source rest remaining
    else i :: closureAux source (rest ++ refsOf source i) (remaining.erase i)
  termination_by queue remaining => (remaining.length, queue.length)
  decreasing_by
  · exact Prod.Lex.right _ (Nat.lt_succ_self _)
  · exact Prod.Lex.left _ _ (by
      have hi : i ∈ remaining := by simpa using ‹¬i ∉ remaining›
      have h1 := List.length_erase_of_mem hi
      have h2 := List.length_pos_of_mem hi
      omega)

/-- The ids the import closure starts from or can ever reach, deduplicated
(so each id is visited at most once, as with the source's `HashSet`). -/
def importUniverse (source : Pool) (selected : List Nat) : List Nat :=
  (selected ++ (source.map Obj.referencedObjects).flatten).dedup

/-- `to_import` after the closure and the `retain` dropping working sets
(src/main.rs lines 1718-1739). -/
def importSurvivors (source : Pool) (selected : List Nat) : List Nat :=
  (closureAux source selected (importUniverse source selected)).filter
    (fun i =>
      match object_by_id source i with
      | some o => o.objectType ≠ ObjectType.WorkingSet
      | none => true)

/-- Phase 1 of the import (src/main.rs lines 1757-1790): walk the surviving
ids, and for each one found in the import pool pick the first id of its
type's range that is neither an id of the target's committed pool nor
already assigned to an earlier import; `none` is the `panic!` outcome of an
exhausted range.  (The source recomputes `pool_obj_ids` inside the loop from
the committed pool, which the loop never touches, so it is passed in
once.) -/
def buildIdMap (source : Pool) (poolIds : List Nat) :
    List Nat → List (Nat × Nat) → Option (List (Nat × Nat))
  | [], acc => some acc
  | old :: rest, acc =>
    match object_by_id source old with
    | none => buildIdMap source poolIds rest acc
    | some obj =>
      match (rangeList (object_id_range obj.objectType)).find?
          (fun i => !poolIds.contains i && !(acc.map Prod.snd).contains i) with
      | some nid => buildIdMap source poolIds rest (acc ++ [(old, nid)])
      | none => none

/-- Phase 2 of the import (src/main.rs lines 1792-1820): clone each
surviving object, write its fresh id (`mut_id().set_value`, which skips the
object — `log::warn` and `continue` — if the value is invalid) and remap its
reference fields with the COMPLETE batch mapping.  A surviving id absent
from the import pool is skipped (`log::error`); for a found object the map
always contains its entry (phase 1 inserted it), so the `HashMap` index
`id_map[&old_id]` cannot panic and is modelled by the same lookup. -/
def importedObjects (source : Pool) (idMap : List (Nat × Nat))
    (survivors : List Nat) : List Obj :=
  survivors.filterMap (fun old =>
    match object_by_id source old with
    | none => none
    | some obj =>
      match idMap.lookup old with
      | none => none
      | some nid =>
        match objectIdNew nid with
        | none => none
        | some nid2 => some (remap_object_references (obj.setId nid2) idMap))

/-- The existing-names set gathered before the import (src/main.rs lines
1745-1755): the stored name of every committed-pool object that has an info
entry. -/
def importExistingNames (p : EditorProject) : List String :=
  p.pool.filterMap (fun o => (p.object_info.lookup o.id).map (fun i => i.get_name o))

/-- Phase 3's per-object naming step (src/main.rs lines 1826-1853): after
adding an imported object to the staging pool, generate and store a smart
name when its (possibly inherited) name collides with a pre-import name or
when it has none. -/
def importNameStep (existing : List String) (p : EditorProject) (o : Obj) :
    EditorProject :=
  let imported_name := (p.object_info.lookup o.id).map (fun i => i.get_name o)
  let needs_rename :=
    match imported_name with
    | some nm => existing.contains nm
    | none => true
  if needs_rename then
    let r := generate_smart_name_for_new_object p o.objectType
    { r.2 with
      object_info := alUpsert r.2.object_info o.id (ObjectInfo.new o)
        (fun i => i.set_name r.1) }
  else p

/-- `import_pool` — the import-merge block of `DesignerApp::update`
(src/main.rs lines 1714-1869): compute the dependency closure of the
selection, drop working sets, allocate a fresh id per survivor (phase 1),
clone and remap every survivor with the complete batch mapping (phase 2),
sort the imports by id, add them to the staging pool with collision-driven
renaming (phase 3), sort the whole staging pool by id, commit once via
`update_pool`, and point the staging selection at the first object.  `none`
is the `panic!` outcome of phase 1. -/
def import_pool (p : EditorProject) (source : Pool) (selected : List Nat) :
    Option EditorProject :=
  let survivors := importSurvivors source selected
  let existing := importExistingNames p
  match buildIdMap source (p.pool.map Obj.id) survivors [] with
  | none => none
  | some idMap =>
    let imported := (importedObjects source idMap survivors).mergeSort
      (fun a b => a.id ≤ b.id)
    let p1 := { p with mut_pool := p.mut_pool ++ imported }
    let p2 := imported.foldl (importNameStep existing) p1
    let p3 := { p2 with
      mut_pool := p2.mut_pool.mergeSort (fun a b => a.id ≤ b.id) }
    let p4 := (update_pool p3).2
    some { p4 with
      mut_selected_object := (p4.pool.head?).map Obj.id }

/-- One document operation of the pool history state machine: a commit of an
arbitrarily mutated staging pool (`get_mut_pool` mutation followed by
`update_pool`), an undo, or a redo. -/
inductive DocOp where
  | commit (staging : Pool)
  | undoStep
  | redoStep

/-- Apply one document operation. -/
def applyOp (p : EditorProject) : DocOp → EditorProject
  | .commit q => (update_pool { p with mut_pool := q }).2
  | .undoStep => undo p
  | .redoStep => redo p

/-- Run a sequence of document operations from a freshly constructed
document. -/
def execOps (p : EditorProject) (ops : List DocOp) : EditorProject :=
  ops.foldl applyOp p

/-- The combined undo+redo pool history size bound. -/
def historyBound (p : EditorProject) : Prop :=
  p.undo_pool_history.length + p.redo_pool_history.length ≤ MAX_UNDO_REDO_POOL

/-- One commit step: mutate the staging pool (the only way consumers edit),
then `update_pool`. -/
def commitStaging (p : EditorProject) (q : Pool) : EditorProject :=
  (update_pool { p with mut_pool := q }).2

/-! ## Concrete fixtures used by witnesses and counterexamples -/

/-- A pool with one working set and one data mask (id 1000), the spec's §8
allocation scenario. -/
def poolWsDm : Pool := [.workingSet 0 1000 [], .dataMask 1000 none []]

/-- The same pool with a button at 6000 added and selected, for the
copy-as-new scenario. -/
def projectSelBtn : EditorProject :=
  { fromPool [.workingSet 0 1000 [], .dataMask 1000 none [], .button 6000 []] with
    selected_object := some 6000 }

/-- A document whose staging pool has a button added, while the
`next_available_id` cache still holds the value computed at construction. -/
def stateStagedBtn : EditorProject :=
  { fromPool [.workingSet 0 1000 []] with
    mut_pool := [.workingSet 0 1000 [], .button 6000 []] }

/-- A pool that already (illegally) contains a structural reference cycle:
container 3000 references button 6000, which references container 3000
back. -/
def cyclicPool : Pool :=
  [.container 3000 [⟨6000, (0, 0)⟩], .button 6000 [⟨3000, (0, 0)⟩]]

/-- A project wrapper whose stored last-selected id (6000) resolves to no
object of the embedded pool. -/
def wrapperStaleSelection : ProjectFile :=
  { version := 1
    pool := [.workingSet 0 1000 []]
    object_metadata := []
    settings := { mask_size := 500, last_selected := some 6000 } }

/-- A document whose single object carries the user-supplied name "Start". -/
def projectUserNamed : EditorProject :=
  { fromPool [.button 6000 []] with
    object_info := [(6000, ⟨some "Start"⟩)] }

/-- The spec's §8 import scenario pools: a container (3000) referencing a
button (6000).  Used both as the import source and (via `fromPool`) as the
target, so the freshly allocated ids are 3001 and 6001. -/
def srcCB : Pool := [.container 3000 [⟨6000, (0, 0)⟩], .button 6000 []]

/-- An import source with an object pointer (27000) referencing a number
variable (21000) — a variant `remap_object_references` does not handle. -/
def srcPtr : Pool := [.numberVariable 21000 0, .objectPointer 27000 (some 21000)]

end TerminalDesigner

namespace TerminalDesigner

/-! ## Theorems -/

/-- C2 (code_bug evidence): the code's `object_id_range` gives the two
distinct node types OutputList and GraphicData the SAME identifier range
37000–37999, so the claimed pairwise disjointness of per-type ranges fails
at this pair. -/
theorem object_id_range_OutputList_GraphicData_collide :
    object_id_range ObjectType.OutputList = object_id_range ObjectType.GraphicData ∧
    ObjectType.OutputList ≠ ObjectType.GraphicData ∧
    object_id_range ObjectType.OutputList = (37000, 37999) := by
  refine ⟨rfl, by decide, rfl⟩

/-- `List.find?` over an ascending `range'` returns the least element
satisfying the predicate. -/
theorem find_first_in_range_le {p : Nat → Bool} :
    ∀ (n lo : Nat) {m : Nat}, (List.range' lo n).find? p = some m →
      ∀ k ∈ List.range' lo n, p k = true → m ≤ k := by
  intro n
  induction n with
  | zero => intro lo m h; simp [List.range'] at h
  | succ n ih =>
    intro lo m h k hk hpk
    rw [List.range'_succ] at h hk
    rw [List.find?_cons] at h
    cases hp : p lo with
    | true =>
      rw [hp] at h
      simp only [Option.some.injEq] at h
      subst h
      rcases List.mem_cons.mp hk with rfl | hk'
      · exact Nat.le_refl _
      · have hb := (List.mem_range'_1.mp hk').1
        omega
    | false =>
      rw [hp] at h
      rcases List.mem_cons.mp hk with rfl | hk'
      · rw [hpk] at hp; cases hp
      · exact ih (lo + 1) h k hk' hpk

/-- C6: for every type whose reserved range still has a free identifier in
the committed pool, `allocate_object_id_for_type` returns the
lowest-numbered free identifier of that range; the pool itself is not
consulted for anything else and not modified (the function only reads
`p.pool`). -/
theorem allocate_object_id_for_type_lowest_free (p : EditorProject)
    (t : ObjectType)
    (h : ∃ i ∈ rangeList (object_id_range t), (object_by_id p.pool i).isNone = true) :
    ∃ m, allocate_object_id_for_type p t = some m ∧
      m ∈ rangeList (object_id_range t) ∧
      object_by_id p.pool m = none ∧
      ∀ k ∈ rangeList (object_id_range t), object_by_id p.pool k = none → m ≤ k := by
  have hs : (allocate_object_id_for_type p t).isSome := by
    unfold allocate_object_id_for_type
    rw [List.find?_isSome]
    exact h
  rcases Option.isSome_iff_exists.mp hs with ⟨m, hm⟩
  refine ⟨m, hm, ?_, ?_, ?_⟩
  · exact List.mem_of_find?_eq_some hm
  · have := List.find?_some hm
    simpa [Option.isNone_iff_eq_none] using this
  · intro k hk hknone
    unfold allocate_object_id_for_type at hm
    unfold rangeList at hk
    exact find_first_in_range_le _ _ hm k hk (by simp [hknone])

/-- C6 witness: in a pool holding only a working set and a data mask with id
1000, allocating a button yields id 6000 (the first free id of 6000–6999). -/
theorem allocate_object_id_for_type_lowest_free_witness :
    (∃ i ∈ rangeList (object_id_range ObjectType.Button),
      (object_by_id (fromPool poolWsDm).pool i).isNone = true) ∧
    (∃ m, allocate_object_id_for_type (fromPool poolWsDm) ObjectType.Button = some m ∧
      m ∈ rangeList (object_id_range ObjectType.Button) ∧
      object_by_id (fromPool poolWsDm).pool m = none ∧
      ∀ k ∈ rangeList (object_id_range ObjectType.Button),
        object_by_id (fromPool poolWsDm).pool k = none → m ≤ k) ∧
    allocate_object_id_for_type (fromPool poolWsDm) ObjectType.Button = some 6000 :=
  ⟨⟨6000, by decide, by decide⟩,
   allocate_object_id_for_type_lowest_free (fromPool poolWsDm) ObjectType.Button
     ⟨6000, by decide, by decide⟩,
   by decide⟩

/-- Writing the clone's id touches only the identifier field. -/
theorem Obj.id_setId (o : Obj) (n : Nat) : (o.setId n).id = n := by
  cases o <;> rfl

/-- Reference fields survive `setId` unchanged. -/
theorem Obj.referencedObjects_setId (o : Obj) (n : Nat) :
    (o.setId n).referencedObjects = o.referencedObjects := by
  cases o <;> rfl

/-- The type survives `setId` unchanged. -/
theorem Obj.objectType_setId (o : Obj) (n : Nat) :
    (o.setId n).objectType = o.objectType := by
  cases o <;> rfl

/-- `setId` changes nothing else: restoring the old id restores the object. -/
theorem Obj.setId_setId_self (o : Obj) (n : Nat) :
    (o.setId n).setId o.id = o := by
  cases o <;> rfl

/-- C7: when the selection resolves to a committed-pool object and its
type's range still has room, copy-as-new returns exactly one clone that
differs from the original in its identifier field only — the identifier is
the freshly allocated lowest free id of the type's range, every reference
field is bit-identical to the original's — and the document (committed pool
included) comes back unchanged, the original still present under its old
identifier. -/
theorem copy_selected_objects_as_new_clone_only (p : EditorProject)
    (i : Nat) (obj : Obj) (nid : Nat)
    (hsel : p.selected_object = some i)
    (hfind : object_by_id p.pool i = some obj)
    (halloc : allocate_object_id_for_type p obj.objectType = some nid) :
    copy_selected_objects_as_new p = some ([obj.setId nid], p) ∧
    (obj.setId nid).id = nid ∧
    nid ∈ rangeList (object_id_range obj.objectType) ∧
    object_by_id p.pool nid = none ∧
    (obj.setId nid).referencedObjects = obj.referencedObjects ∧
    (obj.setId nid).setId obj.id = obj ∧
    object_by_id p.pool i = some obj := by
  refine ⟨?_, Obj.id_setId obj nid, ?_, ?_, Obj.referencedObjects_setId obj nid,
    Obj.setId_setId_self obj nid, hfind⟩
  · simp only [copy_selected_objects_as_new, hsel, hfind, halloc]
  · exact List.mem_of_find?_eq_some halloc
  · have := List.find?_some halloc
    simpa [Option.isNone_iff_eq_none] using this

/-- C7 witness: the §8 scenario — with working set, data mask 1000 and
button 6000 in the pool and the button selected, copy-as-new yields one
clone with fresh id 6001, references untouched, document unchanged. -/
theorem copy_selected_objects_as_new_clone_only_witness :
    projectSelBtn.selected_object = some 6000 ∧
    object_by_id projectSelBtn.pool 6000 = some (.button 6000 []) ∧
    allocate_object_id_for_type projectSelBtn ObjectType.Button = some 6001 ∧
    (copy_selected_objects_as_new projectSelBtn
        = some ([Obj.setId (.button 6000 []) 6001], projectSelBtn) ∧
      (Obj.setId (.button 6000 []) 6001).id = 6001 ∧
      6001 ∈ rangeList (object_id_range (Obj.objectType (.button 6000 []))) ∧
      object_by_id projectSelBtn.pool 6001 = none ∧
      (Obj.setId (.button 6000 []) 6001).referencedObjects
        = Obj.referencedObjects (.button 6000 []) ∧
      (Obj.setId (.button 6000 []) 6001).setId (Obj.id (.button 6000 []))
        = .button 6000 [] ∧
      object_by_id projectSelBtn.pool 6000 = some (.button 6000 [])) :=
  ⟨by decide, by decide, by decide,
   copy_selected_objects_as_new_clone_only projectSelBtn 6000 (.button 6000 []) 6001
     (by decide) (by decide) (by decide)⟩

/-- C4 (amended): commit returns "changed" exactly when the staging pool
differs from the committed pool; when it does, the redo stack is cleared,
the prior committed pool is pushed on the undo stack with the oldest entries
beyond capacity 10 evicted, the committed pool becomes the staging pool and
the default-name cache is cleared, while the identifier-allocation cache
(`next_available_id`) is left untouched; an unchanged staging pool is a
strict no-op, and a second commit right after any commit returns "unchanged"
with the undo stack untouched. -/
theorem update_pool_commit_contract (p : EditorProject) :
    ((update_pool p).1 = true ↔ p.mut_pool ≠ p.pool) ∧
    (p.mut_pool ≠ p.pool →
      (update_pool p).2.redo_pool_history = [] ∧
      (update_pool p).2.undo_pool_history =
        (p.undo_pool_history ++ [p.pool]).drop
          (p.undo_pool_history.length + 1 - MAX_UNDO_REDO_POOL) ∧
      (update_pool p).2.undo_pool_history.length =
        min (p.undo_pool_history.length + 1) MAX_UNDO_REDO_POOL ∧
      (update_pool p).2.pool = p.mut_pool ∧
      (update_pool p).2.default_object_names = [] ∧
      (update_pool p).2.next_available_id = p.next_available_id ∧
      (update_pool p).2.selected_object = p.selected_object ∧
      (update_pool p).2.object_info = p.object_info) ∧
    (p.mut_pool = p.pool → (update_pool p).1 = false ∧ (update_pool p).2 = p) ∧
    ((update_pool (update_pool p).2).1 = false ∧
      (update_pool (update_pool p).2).2.undo_pool_history
        = (update_pool p).2.undo_pool_history) := by
  by_cases h : p.mut_pool = p.pool
  · refine ⟨by simp [update_pool, h], fun hne => absurd h hne, fun _ => ?_, ?_⟩
    · simp [update_pool, h]
    · simp [update_pool, h]
  · have hlen : (p.undo_pool_history ++ [p.pool]).length
        = p.undo_pool_history.length + 1 := by simp
    refine ⟨by simp [update_pool, h], fun _ => ?_, fun he => absurd he h, ?_⟩
    · refine ⟨by simp [update_pool, h], ?_, ?_, by simp [update_pool, h],
        by simp [update_pool, h], by simp [update_pool, h],
        by simp [update_pool, h], by simp [update_pool, h]⟩
      · simp only [update_pool, if_pos h]
        by_cases hb : p.undo_pool_history.length + 1 > MAX_UNDO_REDO_POOL
        · simp [hlen, hb]
        · have h0 : p.undo_pool_history.length + 1 - MAX_UNDO_REDO_POOL = 0 := by
            omega
          simp [hlen, hb, h0]
      · simp only [update_pool, if_pos h]
        by_cases hb : p.undo_pool_history.length + 1 > MAX_UNDO_REDO_POOL
        · simp only [hlen, if_pos hb]
          rw [List.length_drop]
          simp only [hlen]
          unfold MAX_UNDO_REDO_POOL at hb ⊢
          omega
        · simp only [hlen, if_neg hb]
          unfold MAX_UNDO_REDO_POOL at hb ⊢
          omega
    · set q := (update_pool p).2 with hq
      have h2 : q.mut_pool = q.pool := by
        rw [hq]; simp [update_pool, h]
      constructor
      · simp [update_pool, h2]
      · simp [update_pool, h2]

/-- C4 counterexample: commit does NOT invalidate the identifier-allocation
cache — after a commit that adds a button with id 6000, `next_available_id`
still holds the stale pre-commit value 1, while an invalidation (the
recomputation `update_next_available_id` that undo/redo perform) would set
it to 6001. -/
theorem update_pool_keeps_stale_id_cache :
    (update_pool stateStagedBtn).1 = true ∧
    (update_pool stateStagedBtn).2.next_available_id = 1 ∧
    (update_next_available_id (update_pool stateStagedBtn).2).next_available_id
      = 6001 := by
  refine ⟨by decide, by decide, by decide⟩

/-- A single operation preserves the combined history bound. -/
theorem applyOp_historyBound (p : EditorProject) (op : DocOp)
    (h : historyBound p) : historyBound (applyOp p op) := by
  unfold historyBound at h ⊢
  cases op with
  | commit q =>
    simp only [applyOp]
    by_cases he : q = p.pool
    · simp [update_pool, he]
      omega
    · have hne : ({ p with mut_pool := q } : EditorProject).mut_pool
          ≠ ({ p with mut_pool := q } : EditorProject).pool := he
      simp only [update_pool, if_pos hne]
      by_cases hb : (p.undo_pool_history ++ [p.pool]).length > MAX_UNDO_REDO_POOL
      · simp only [if_pos hb]
        rw [List.length_drop]
        simp
        omega
      · simp only [if_neg hb]
        simp at hb ⊢
        omega
  | undoStep =>
    simp only [applyOp]
    unfold undo
    cases hl : p.undo_pool_history.getLast? with
    | none => exact h
    | some q =>
      have hne : p.undo_pool_history ≠ [] := by
        intro hc; rw [hc] at hl; cases hl
      have : p.undo_pool_history.dropLast.length
          = p.undo_pool_history.length - 1 := by
        simp [List.length_dropLast]
      have hpos : 0 < p.undo_pool_history.length :=
        List.length_pos.mpr hne
      simp only [update_next_available_id]
      simp [this]
      omega
  | redoStep =>
    simp only [applyOp]
    unfold redo
    cases hl : p.redo_pool_history.getLast? with
    | none => exact h
    | some q =>
      have hne : p.redo_pool_history ≠ [] := by
        intro hc; rw [hc] at hl; cases hl
      have : p.redo_pool_history.dropLast.length
          = p.redo_pool_history.length - 1 := by
        simp [List.length_dropLast]
      have hpos : 0 < p.redo_pool_history.length :=
        List.length_pos.mpr hne
      simp only [update_next_available_id]
      simp [this]
      omega

/-- C10: starting from a freshly constructed document, under any sequence of
commits (of arbitrary staging pools), undos and redos, the combined size of
the pool undo stack and the pool redo stack never exceeds 10: commits cap
the undo stack at 10 while clearing the redo stack, and undo/redo each move
exactly one snapshot between the stacks, so redo's unbounded push onto the
undo stack stays within the bound. -/
theorem execOps_history_bounded (pool : Pool) (ops : List DocOp) :
    (execOps (fromPool pool) ops).undo_pool_history.length +
      (execOps (fromPool pool) ops).redo_pool_history.length ≤ 10 := by
  have h0 : historyBound (fromPool pool) := by
    simp [historyBound, fromPool, MAX_UNDO_REDO_POOL]
  have main : ∀ (l : List DocOp) (p : EditorProject), historyBound p →
      historyBound (execOps p l) := by
    intro l
    induction l with
    | nil => intro p hp; exact hp
    | cons op rest ih =>
      intro p hp
      exact ih (applyOp p op) (applyOp_historyBound p op hp)
  exact main ops (fromPool pool) h0

/-- A commit leaves the redo stack empty when it was empty (it either clears
it or changes nothing). -/
theorem commitStaging_redo_nil (p : EditorProject) (q : Pool)
    (h : p.redo_pool_history = []) :
    (commitStaging p q).redo_pool_history = [] := by
  unfold commitStaging update_pool
  by_cases he : q = p.pool <;> simp [he, h]

/-- After any sequence of commits from a state with an empty redo stack, the
redo stack is still empty. -/
theorem foldl_commitStaging_redo_nil (stages : List Pool) :
    ∀ p : EditorProject, p.redo_pool_history = [] →
      (stages.foldl commitStaging p).redo_pool_history = [] := by
  induction stages with
  | nil => intro p h; exact h
  | cons q rest ih =>
    intro p h
    exact ih (commitStaging p q) (commitStaging_redo_nil p q h)

/-- In any state with an empty redo stack, `undo(); redo();` restores the
committed pool exactly, and neither operation touches the selection or the
name metadata. -/
theorem undo_redo_of_redo_nil (p : EditorProject)
    (h : p.redo_pool_history = []) :
    (redo (undo p)).pool = p.pool ∧
    (redo (undo p)).selected_object = p.selected_object ∧
    (undo p).selected_object = p.selected_object ∧
    (redo (undo p)).object_info = p.object_info := by
  cases hl : p.undo_pool_history.getLast? with
  | none =>
    have hu : undo p = p := by unfold undo; rw [hl]
    have hr : redo p = p := by
      unfold redo; rw [h]; rfl
    rw [hu, hr]
    exact ⟨rfl, rfl, rfl, rfl⟩
  | some q =>
    have hu : undo p = update_next_available_id { p with
        undo_pool_history := p.undo_pool_history.dropLast
        redo_pool_history := p.redo_pool_history ++ [p.pool]
        pool := q
        mut_pool := q
        default_object_names := [] } := by
      unfold undo; rw [hl]
    rw [hu]
    unfold update_next_available_id
    simp only [h, List.nil_append]
    unfold redo
    simp [update_next_available_id]

/-- C5: for a document reached from construction by any sequence of at most
10 commits, `undo(); redo();` restores exactly the committed pool present
before the undo, and the selection and name metadata — which pool undo/redo
never touch — are preserved bit-for-bit (the snapshots are restored, nothing
is re-derived). -/
theorem undo_redo_roundtrip (pool : Pool) (stages : List Pool)
    (_hlen : stages.length ≤ 10) :
    (redo (undo (stages.foldl commitStaging (fromPool pool)))).pool
      = (stages.foldl commitStaging (fromPool pool)).pool ∧
    (redo (undo (stages.foldl commitStaging (fromPool pool)))).selected_object
      = (stages.foldl commitStaging (fromPool pool)).selected_object ∧
    (undo (stages.foldl commitStaging (fromPool pool))).selected_object
      = (stages.foldl commitStaging (fromPool pool)).selected_object ∧
    (redo (undo (stages.foldl commitStaging (fromPool pool)))).object_info
      = (stages.foldl commitStaging (fromPool pool)).object_info := by
  have hredo : (stages.foldl commitStaging (fromPool pool)).redo_pool_history = [] :=
    foldl_commitStaging_redo_nil stages (fromPool pool) rfl
  exact undo_redo_of_redo_nil _ hredo

/-- C5 witness: one concrete commit (adding a button to the working-set
pool), then undo and redo: the committed pool, selection and metadata come
back exactly. -/
theorem undo_redo_roundtrip_witness :
    ([[Obj.button 6000 []]] : List Pool).length ≤ 10 ∧
    ((redo (undo ([[Obj.button 6000 []]].foldl commitStaging (fromPool poolWsDm)))).pool
      = ([[Obj.button 6000 []]].foldl commitStaging (fromPool poolWsDm)).pool ∧
    (redo (undo ([[Obj.button 6000 []]].foldl commitStaging (fromPool poolWsDm)))).selected_object
      = ([[Obj.button 6000 []]].foldl commitStaging (fromPool poolWsDm)).selected_object ∧
    (undo ([[Obj.button 6000 []]].foldl commitStaging (fromPool poolWsDm))).selected_object
      = ([[Obj.button 6000 []]].foldl commitStaging (fromPool poolWsDm)).selected_object ∧
    (redo (undo ([[Obj.button 6000 []]].foldl commitStaging (fromPool poolWsDm)))).object_info
      = ([[Obj.button 6000 []]].foldl commitStaging (fromPool poolWsDm)).object_info) :=
  ⟨by decide, undo_redo_roundtrip poolWsDm [[Obj.button 6000 []]] (by decide)⟩

/-- Smart-naming a single object never touches the pool or the selection. -/
theorem apply_smart_naming_to_object_frame (p : EditorProject) (o : Obj) :
    (apply_smart_naming_to_object p o).selected_object = p.selected_object ∧
    (apply_smart_naming_to_object p o).mut_selected_object = p.mut_selected_object ∧
    (apply_smart_naming_to_object p o).pool = p.pool := by
  unfold apply_smart_naming_to_object
  dsimp only
  split <;> exact ⟨rfl, rfl, rfl⟩

/-- Folding smart naming over the pool never touches the selection. -/
theorem foldl_smart_naming_selected (l : List Obj) :
    ∀ p : EditorProject,
      (l.foldl apply_smart_naming_to_object p).selected_object = p.selected_object := by
  induction l with
  | nil => intro p; rfl
  | cons o rest ih =>
    intro p
    simp only [List.foldl_cons]
    exact (ih (apply_smart_naming_to_object p o)).trans
      (apply_smart_naming_to_object_frame p o).1

/-- Folding smart naming over the pool never touches the staging selection. -/
theorem foldl_smart_naming_mut_selected (l : List Obj) :
    ∀ p : EditorProject,
      (l.foldl apply_smart_naming_to_object p).mut_selected_object
        = p.mut_selected_object := by
  induction l with
  | nil => intro p; rfl
  | cons o rest ih =>
    intro p
    simp only [List.foldl_cons]
    exact (ih (apply_smart_naming_to_object p o)).trans
      (apply_smart_naming_to_object_frame p o).2.1

/-- C8 (amended): after a successful load, the stored last-selected
identifier is restored as the document's selection whenever it is a valid
object identifier (not the reserved null 65535) — the code never checks that
it resolves to an object of the decoded pool; the selection is left null
only when no identifier is stored or the stored one is the null value. -/
theorem load_project_selection_restore (pf : ProjectFile) :
    (load_project pf).selected_object =
      (match pf.settings.last_selected with
       | some sid => if sid < nullObjectId then some sid else none
       | none => none) ∧
    (load_project pf).mut_selected_object = (load_project pf).selected_object := by
  unfold load_project
  dsimp only
  cases hsel : pf.settings.last_selected with
  | none =>
    simp [foldl_smart_naming_selected, foldl_smart_naming_mut_selected, fromPool]
  | some sid =>
    by_cases hv : sid < nullObjectId
    · simp [objectIdNew, hv]
    · simp [objectIdNew, hv, foldl_smart_naming_selected,
        foldl_smart_naming_mut_selected, fromPool]

/-- C8 counterexample: loading a wrapper whose stored last-selected id 6000
resolves to no object of the decoded pool still restores 6000 as the
selection — the claim's "only if it still resolves to an existing node"
fails (the selection is not left null). -/
theorem load_project_restores_unresolvable_selection :
    (load_project wrapperStaleSelection).selected_object = some 6000 ∧
    object_by_id (load_project wrapperStaleSelection).pool 6000 = none := by
  refine ⟨by decide, by decide⟩

/-- C9 (code_bug evidence): on a pool whose single button carries the
user-supplied name "Start", `apply_smart_naming_to_all_objects` overwrites
that name with the generated "Button 1" — its loop walks every pool object
and stores a generated name unconditionally, although its own comment says
"remaining objects" and the spec forbids overwriting user names.  By
contrast, the single-object `apply_smart_naming_to_object` on the same node
is the no-op the claim demands. -/
theorem apply_smart_naming_to_all_objects_overwrites_user_name :
    projectUserNamed.object_info.lookup 6000 = some ⟨some "Start"⟩ ∧
    (apply_smart_naming_to_all_objects projectUserNamed).object_info.lookup 6000
      = some ⟨some "Button 1"⟩ ∧
    apply_smart_naming_to_object projectUserNamed (.button 6000 [])
      = projectUserNamed := by
  refine ⟨by decide, by decide, by decide⟩

/-- Every identifier referenced by any pool object belongs to the candidate
universe of the search. -/
theorem refsOf_mem_allNodeIds (pool : Pool) (child v r : Nat)
    (hr : r ∈ refsOf pool v) : r ∈ allNodeIds pool child := by
  unfold refsOf at hr
  cases hfind : object_by_id pool v with
  | none => rw [hfind] at hr; cases hr
  | some o =>
    rw [hfind] at hr
    have ho : o ∈ pool := List.mem_of_find?_eq_some hfind
    unfold allNodeIds
    rw [List.mem_toFinset, List.mem_cons]
    exact Or.inr (List.mem_flatten.mpr
      ⟨o.referencedObjects, List.mem_map_of_mem _ ho, hr⟩)

/-- The starting child belongs to the candidate universe. -/
theorem child_mem_allNodeIds (pool : Pool) (child : Nat) :
    child ∈ allNodeIds pool child := by
  unfold allNodeIds
  rw [List.mem_toFinset]
  exact List.mem_cons_self _ _

/-- A set of nodes closed under reference edges and avoiding the parent
cannot reach the parent. -/
theorem no_reach_of_closed (pool : Pool) (parent : Nat) (V : Set Nat)
    (hclosed : ∀ v ∈ V, ∀ r ∈ refsOf pool v, r ∈ V)
    (hpar : parent ∉ V) :
    ∀ x ∈ V, ¬ reaches pool x parent := by
  have main : ∀ y, reaches pool y parent → y ∈ V → False := by
    intro y hy
    unfold reaches at hy
    induction hy using Relation.ReflTransGen.head_induction_on with
    | refl => intro hp; exact hpar hp
    | head hstep _ ih => intro ha; exact ih (hclosed _ ha _ hstep)
  intro x hx hre
  exact main x hre hx

/-- Soundness of the worklist search: a `true` answer exhibits a stack
element that reaches the parent. -/
theorem dfsAux_sound (pool : Pool) (parent : Nat) :
    ∀ (stack : List Nat) (remaining : Finset Nat),
      dfsAux pool parent stack remaining = true →
      ∃ x ∈ stack, reaches pool x parent := by
  intro stack remaining
  induction stack, remaining using dfsAux.induct pool parent with
  | case1 remaining => intro h; simp [dfsAux] at h
  | case2 current rest remaining hskip ih =>
    intro h
    simp only [dfsAux, if_pos hskip] at h
    rcases ih h with ⟨x, hx, hr⟩
    exact ⟨x, List.mem_cons_of_mem _ hx, hr⟩
  | case3 rest remaining hmem =>
    exact fun _ => ⟨parent, List.mem_cons_self _ _, Relation.ReflTransGen.refl⟩
  | case4 current rest remaining hmem hne ih =>
    intro h
    simp only [dfsAux, if_neg hmem, if_neg hne] at h
    rcases ih h with ⟨x, hx, hr⟩
    rcases List.mem_append.mp hx with hx' | hx'
    · have hedge : refEdge pool current x := List.mem_reverse.mp hx'
      exact ⟨current, List.mem_cons_self _ _, Relation.ReflTransGen.head hedge hr⟩
    · exact ⟨x, List.mem_cons_of_mem _ hx', hr⟩

/-- Completeness of the worklist search: a `false` answer rules out
reachability of the parent from every stacked or already-visited node.  The
two invariants say that the stack stays inside the candidate universe and
that every visited node is not the parent and has all its references either
visited or still stacked. -/
theorem dfsAux_complete (pool : Pool) (parent child : Nat) :
    ∀ (stack : List Nat) (remaining : Finset Nat),
      (∀ x ∈ stack, x ∈ allNodeIds pool child) →
      (∀ v ∈ allNodeIds pool child, v ∉ remaining →
        v ≠ parent ∧ ∀ r ∈ refsOf pool v, r ∉ remaining ∨ r ∈ stack) →
      dfsAux pool parent stack remaining = false →
      ∀ x ∈ allNodeIds pool child, x ∈ stack ∨ x ∉ remaining →
        ¬ reaches pool x parent := by
  intro stack remaining
  induction stack, remaining using dfsAux.induct pool parent with
  | case1 remaining =>
    intro _ hinv _ x hxall hx
    have hxnot : x ∉ remaining := by
      rcases hx with h | h
      · cases h
      · exact h
    refine no_reach_of_closed pool parent
      {v | v ∈ allNodeIds pool child ∧ v ∉ remaining} ?_ ?_ x ⟨hxall, hxnot⟩
    · rintro v ⟨hva, hvr⟩ r hrr
      refine ⟨refsOf_mem_allNodeIds pool child v r hrr, ?_⟩
      rcases (hinv v hva hvr).2 r hrr with h | h
      · exact h
      · cases h
    · rintro ⟨hpa, hpr⟩
      exact (hinv parent hpa hpr).1 rfl
  | case2 current rest remaining hskip ih =>
    intro hstack hinv hfalse x hxall hx
    simp only [dfsAux, if_pos hskip] at hfalse
    refine ih (fun y hy => hstack y (List.mem_cons_of_mem _ hy)) ?_ hfalse x hxall ?_
    · intro v hva hvr
      refine ⟨(hinv v hva hvr).1, fun r hrr => ?_⟩
      rcases (hinv v hva hvr).2 r hrr with h | h
      · exact Or.inl h
      · rcases List.mem_cons.mp h with rfl | h'
        · exact Or.inl hskip
        · exact Or.inr h'
    · rcases hx with h | h
      · rcases List.mem_cons.mp h with rfl | h'
        · exact Or.inr hskip
        · exact Or.inl h'
      · exact Or.inr h
  | case3 rest remaining hmem =>
    intro _ _ hfalse
    simp only [dfsAux, if_neg hmem] at hfalse
    simp at hfalse
  | case4 current rest remaining hmem hne ih =>
    intro hstack hinv hfalse x hxall hx
    simp only [dfsAux, if_neg hmem, if_neg hne] at hfalse
    have hcur : current ∈ remaining := Decidable.not_not.mp hmem
    have hcur_all : current ∈ allNodeIds pool child :=
      hstack current (List.mem_cons_self _ _)
    have key := ih ?hstack ?hinv hfalse
    case hstack =>
      intro y hy
      rcases List.mem_append.mp hy with h | h
      · exact refsOf_mem_allNodeIds pool child current y (List.mem_reverse.mp h)
      · exact hstack y (List.mem_cons_of_mem _ h)
    case hinv =>
      intro v hva hvr
      rw [Finset.mem_erase] at hvr
      push_neg at hvr
      by_cases hvc : v = current
      · subst hvc
        refine ⟨hne, fun r hrr => Or.inr ?_⟩
        exact List.mem_append_left _ (List.mem_reverse.mpr hrr)
      · have hvrem : v ∉ remaining := hvr hvc
        refine ⟨(hinv v hva hvrem).1, fun r hrr => ?_⟩
        rcases (hinv v hva hvrem).2 r hrr with h | h
        · exact Or.inl (fun hc => h (Finset.mem_of_mem_erase hc))
        · rcases List.mem_cons.mp h with rfl | h'
          · exact Or.inl (Finset.not_mem_erase _ _)
          · exact Or.inr (List.mem_append_right _ h')
    refine fun hre => key x hxall ?_ hre
    rcases hx with h | h
    · rcases List.mem_cons.mp h with rfl | h'
      · exact Or.inr (Finset.not_mem_erase _ _)
      · exact Or.inl (List.mem_append_right _ h')
    · exact Or.inr (fun hc => h (Finset.mem_of_mem_erase hc))

/-- C3: `would_create_circular_reference(pool, parent, child)` is true
exactly when parent and child coincide or the parent is reachable from the
child along reference edges; this holds for EVERY pool, including pools
that already contain a reference cycle (the function is total — the visited
marking makes the traversal terminate), as the two evaluations on the
pre-cycled `cyclicPool` demonstrate: the guard fires for the pair inside the
cycle and stays quiet for an unreachable parent even though the traversal
must cross the full cycle. -/
theorem would_create_circular_reference_iff_reaches :
    (∀ (pool : Pool) (parent child : Nat),
      would_create_circular_reference pool parent child = true ↔
        parent = child ∨ reaches pool child parent) ∧
    would_create_circular_reference cyclicPool 6000 3000 = true ∧
    would_create_circular_reference cyclicPool 21000 3000 = false := by
  have main : ∀ (pool : Pool) (parent child : Nat),
      would_create_circular_reference pool parent child = true ↔
        parent = child ∨ reaches pool child parent := by
    intro pool parent child
    unfold would_create_circular_reference
    by_cases hpc : parent = child
    · simp [hpc]
    · rw [if_neg hpc]
      constructor
      · intro h
        rcases dfsAux_sound pool parent _ _ h with ⟨x, hx, hr⟩
        rcases List.mem_cons.mp hx with rfl | hx'
        · exact Or.inr hr
        · cases hx'
      · rintro (h | h)
        · exact absurd h hpc
        · by_contra hfalse
          rw [Bool.not_eq_true] at hfalse
          exact dfsAux_complete pool parent child [child] (allNodeIds pool child)
            (by
              intro x hx
              rcases List.mem_cons.mp hx with rfl | hx'
              · exact child_mem_allNodeIds pool x
              · cases hx')
            (fun v hv hvr => absurd hv hvr)
            hfalse child (child_mem_allNodeIds pool child)
            (Or.inl (List.mem_cons_self _ _)) h
  refine ⟨main, ?_, ?_⟩
  · rw [main]
    refine Or.inr (Relation.ReflTransGen.single ?_)
    show (6000 : Nat) ∈ refsOf cyclicPool 3000
    decide
  · have hno : ¬((21000 : Nat) = 3000 ∨ reaches cyclicPool 3000 21000) := by
      rintro (h | h)
      · cases h
      · refine no_reach_of_closed cyclicPool 21000
          {v | v = 3000 ∨ v = 6000} ?_ ?_ 3000 (Or.inl rfl) h
        · rintro v (rfl | rfl) r hr
          · have he : refsOf cyclicPool 3000 = [6000] := by decide
            rw [he] at hr
            rcases List.mem_singleton.mp hr with rfl
            exact Or.inr rfl
          · have he : refsOf cyclicPool 6000 = [3000] := by decide
            rw [he] at hr
            rcases List.mem_singleton.mp hr with rfl
            exact Or.inl rfl
        · rintro (h | h) <;> cases h
    cases hb : would_create_circular_reference cyclicPool 21000 3000 with
    | false => rfl
    | true => exact absurd ((main cyclicPool 21000 3000).mp hb) hno

/-- Remapping never changes the object's own identifier. -/
theorem Obj.id_remap (o : Obj) (m : List (Nat × Nat)) :
    (remap_object_references o m).id = o.id := by
  cases o <;> rfl

/-- Being a handled variant is invariant under `setId`. -/
theorem remapHandled_setId (o : Obj) (n : Nat) :
    remapHandled (o.setId n) ↔ remapHandled o := by
  unfold remapHandled
  rw [Obj.objectType_setId]

/-- For the variants `remap_object_references` handles, EVERY reference
field is rewritten through the map: the referenced identifiers of the
remapped object are exactly the images of the original's referenced
identifiers. -/
theorem remap_handled_referencedObjects (o : Obj) (m : List (Nat × Nat))
    (h : remapHandled o) :
    (remap_object_references o m).referencedObjects
      = o.referencedObjects.map (remapId m) := by
  cases o with
  | workingSet i am refs =>
    simp [remap_object_references, Obj.referencedObjects, List.map_map,
      Function.comp_def]
  | dataMask i skm refs =>
    cases skm <;>
      simp [remap_object_references, Obj.referencedObjects, List.map_map,
        Function.comp_def]
  | alarmMask i skm refs =>
    cases skm <;>
      simp [remap_object_references, Obj.referencedObjects, List.map_map,
        Function.comp_def]
  | container i refs =>
    simp [remap_object_references, Obj.referencedObjects, List.map_map,
      Function.comp_def]
  | softKeyMask i objs =>
    simp [remap_object_references, Obj.referencedObjects,
      List.reduceOption_map]
  | key i refs =>
    simp [remap_object_references, Obj.referencedObjects, List.map_map,
      Function.comp_def]
  | button i refs =>
    simp [remap_object_references, Obj.referencedObjects, List.map_map,
      Function.comp_def]
  | objectPointer i v => simp [remapHandled, Obj.objectType] at h
  | numberVariable i v => simp [remapHandled, Obj.objectType] at h
  | fontAttributes i => simp [remapHandled, Obj.objectType] at h

/-- Commit always leaves the committed pool equal to the staging pool. -/
theorem update_pool_snd_pool (p : EditorProject) :
    (update_pool p).2.pool = p.mut_pool := by
  unfold update_pool
  by_cases h : p.mut_pool = p.pool <;> simp [h]

/-- The import's naming step never touches the staging pool. -/
theorem importNameStep_mut_pool (e : List String) (p : EditorProject) (o : Obj) :
    (importNameStep e p o).mut_pool = p.mut_pool := by
  unfold importNameStep generate_smart_name_for_new_object get_all_object_names
  dsimp only
  split <;> rfl

/-- Folding the import naming step never touches the staging pool. -/
theorem foldl_importNameStep_mut_pool (e : List String) (l : List Obj) :
    ∀ p : EditorProject, (l.foldl (importNameStep e) p).mut_pool = p.mut_pool := by
  induction l with
  | nil => intro p; rfl
  | cons o rest ih =>
    intro p
    simp only [List.foldl_cons]
    exact (ih (importNameStep e p o)).trans (importNameStep_mut_pool e p o)

/-- C1 (amended): in any import merge that completes, every surviving
imported node OF A VARIANT `remap_object_references` HANDLES (working set,
data/alarm mask, container, soft key mask, key, button) is inserted into the
merged pool as a clone carrying its freshly allocated identifier, with every
reference field rewritten through the complete batch mapping computed in
phase 1 before any node is rewritten; nodes of other variants keep their
reference fields unchanged (the `_ => {}` arm). -/
theorem import_pool_remaps_handled_variants (p : EditorProject) (source : Pool)
    (selected : List Nat) (idMap : List (Nat × Nat)) (old nid : Nat) (obj : Obj)
    (hbuild : buildIdMap source (p.pool.map Obj.id)
      (importSurvivors source selected) [] = some idMap)
    (hmem : old ∈ importSurvivors source selected)
    (hfind : object_by_id source old = some obj)
    (hlook : idMap.lookup old = some nid)
    (hvalid : nid < nullObjectId)
    (hhandled : remapHandled obj) :
    ∃ p', import_pool p source selected = some p' ∧
      remap_object_references (obj.setId nid) idMap ∈ p'.pool ∧
      (remap_object_references (obj.setId nid) idMap).id = nid ∧
      (remap_object_references (obj.setId nid) idMap).referencedObjects
        = obj.referencedObjects.map (remapId idMap) := by
  have hclone : remap_object_references (obj.setId nid) idMap ∈
      importedObjects source idMap (importSurvivors source selected) := by
    unfold importedObjects
    apply List.mem_filterMap.mpr
    refine ⟨old, hmem, ?_⟩
    simp only [hfind, hlook, objectIdNew, if_pos hvalid]
  unfold import_pool
  dsimp only
  rw [hbuild]
  refine ⟨_, rfl, ?_, ?_, ?_⟩
  · show remap_object_references (obj.setId nid) idMap ∈
      (update_pool _).2.pool
    rw [update_pool_snd_pool]
    dsimp only
    rw [List.mem_mergeSort]
    rw [foldl_importNameStep_mut_pool]
    dsimp only
    refine List.mem_append_right _ ?_
    rw [List.mem_mergeSort]
    exact hclone
  · rw [Obj.id_remap, Obj.id_setId]
  · rw [remap_handled_referencedObjects _ _ ((remapHandled_setId obj nid).mpr hhandled),
      Obj.referencedObjects_setId]

/-- C1 witness — the spec's §8 scenario: importing container 3000 (which
references button 6000, itself not selected) into a target already holding
ids 3000 and 6000 puts both nodes into the merged pool under the fresh ids
3001 and 6001, and the container clone's reference field holds the button's
NEW id 6001, not 6000. -/
theorem import_pool_remaps_handled_variants_witness :
    buildIdMap srcCB ((fromPool srcCB).pool.map Obj.id)
      (importSurvivors srcCB [3000]) [] = some [(3000, 3001), (6000, 6001)] ∧
    3000 ∈ importSurvivors srcCB [3000] ∧
    object_by_id srcCB 3000 = some (.container 3000 [⟨6000, (0, 0)⟩]) ∧
    List.lookup 3000 [(3000, 3001), (6000, 6001)] = some 3001 ∧
    3001 < nullObjectId ∧
    remapHandled (.container 3000 [⟨6000, (0, 0)⟩]) ∧
    remap_object_references (Obj.setId (.container 3000 [⟨6000, (0, 0)⟩]) 3001)
        [(3000, 3001), (6000, 6001)] = .container 3001 [⟨6001, (0, 0)⟩] ∧
    (∃ p', import_pool (fromPool srcCB) srcCB [3000] = some p' ∧
      remap_object_references (Obj.setId (.container 3000 [⟨6000, (0, 0)⟩]) 3001)
          [(3000, 3001), (6000, 6001)] ∈ p'.pool ∧
      (remap_object_references (Obj.setId (.container 3000 [⟨6000, (0, 0)⟩]) 3001)
          [(3000, 3001), (6000, 6001)]).id = 3001 ∧
      (remap_object_references (Obj.setId (.container 3000 [⟨6000, (0, 0)⟩]) 3001)
          [(3000, 3001), (6000, 6001)]).referencedObjects
        = (Obj.referencedObjects (.container 3000 [⟨6000, (0, 0)⟩])).map
            (remapId [(3000, 3001), (6000, 6001)])) := by
  have hsurv : importSurvivors srcCB [3000] = [3000, 6000] := by
    unfold importSurvivors
    have h1 : importUniverse srcCB [3000] = [3000, 6000] := by decide
    rw [h1]
    have h2 : closureAux srcCB [3000] [3000, 6000] = [3000, 6000] := by
      simp [closureAux, refsOf, object_by_id, srcCB, List.find?, Obj.id,
        Obj.referencedObjects]
    rw [h2]
    decide
  have hbuild : buildIdMap srcCB ((fromPool srcCB).pool.map Obj.id)
      (importSurvivors srcCB [3000]) [] = some [(3000, 3001), (6000, 6001)] := by
    rw [hsurv]; decide
  exact ⟨hbuild, by rw [hsurv]; decide, by decide, by decide, by decide,
    by decide, by decide,
    import_pool_remaps_handled_variants (fromPool srcCB) srcCB [3000]
      [(3000, 3001), (6000, 6001)] 3000 3001 (.container 3000 [⟨6000, (0, 0)⟩])
      hbuild (by rw [hsurv]; decide) (by decide) (by decide) (by decide)
      (by decide)⟩

/-- C1 counterexample: the claim's "every reference field of every imported
node" fails for variants outside the handled arms.  Importing object pointer
27000 (whose value references the also-imported number variable 21000) into
a target already holding ids 21000 and 27000 allocates fresh ids 27001 and
21001 per the batch map, yet the pointer clone in the merged pool still
references the OLD id 21000 instead of the variable's new id 21001 (the
`_ => {}` arm of `remap_object_references`). -/
theorem import_pool_leaves_pointer_reference_unmapped :
    (import_pool (fromPool srcPtr) srcPtr [27000]).map
        (fun p' => (object_by_id p'.pool 27001, object_by_id p'.pool 21001))
      = some (some (.objectPointer 27001 (some 21000)),
              some (.numberVariable 21001 0)) ∧
    buildIdMap srcPtr ((fromPool srcPtr).pool.map Obj.id)
      (importSurvivors srcPtr [27000]) [] = some [(27000, 27001), (21000, 21001)] := by
  have hsurv : importSurvivors srcPtr [27000] = [27000, 21000] := by
    unfold importSurvivors
    have h1 : importUniverse srcPtr [27000] = [27000, 21000] := by decide
    rw [h1]
    have h2 : closureAux srcPtr [27000] [27000, 21000] = [27000, 21000] := by
      simp [closureAux, refsOf, object_by_id, srcPtr, List.find?, Obj.id,
        Obj.referencedObjects]
    rw [h2]
    decide
  have hbuild : buildIdMap srcPtr ((fromPool srcPtr).pool.map Obj.id)
      [27000, 21000] [] = some [(27000, 27001), (21000, 21001)] := by decide
  constructor
  · unfold import_pool
    dsimp only
    rw [hsurv, hbuild]
    dsimp only [Option.map]
    rw [update_pool_snd_pool]
    dsimp only
    rw [foldl_importNameStep_mut_pool]
    dsimp only
    have himp : importedObjects srcPtr [(27000, 27001), (21000, 21001)]
        [27000, 21000]
        = [.objectPointer 27001 (some 21000), .numberVariable 21001 0] := by decide
    rw [himp]
    have hsort1 : ([Obj.objectPointer 27001 (some 21000),
        Obj.numberVariable 21001 0].mergeSort (fun a b => a.id ≤ b.id))
        = [Obj.numberVariable 21001 0, Obj.objectPointer 27001 (some 21000)] := by
      simp [List.mergeSort, Obj.id]
    rw [hsort1]
    have hsort2 : (((fromPool srcPtr).mut_pool ++
        [Obj.numberVariable 21001 0, Obj.objectPointer 27001 (some 21000)]).mergeSort
          (fun a b => a.id ≤ b.id))
        = [Obj.numberVariable 21000 0, Obj.numberVariable 21001 0,
           Obj.objectPointer 27000 (some 21000),
           Obj.objectPointer 27001 (some 21000)] := by
      simp [fromPool, srcPtr, List.mergeSort, Obj.id, get_minimum_mask_sizes]
    rw [hsort2]
    decide
  · rw [hsurv]
    exact hbuild

end TerminalDesigner
